import Mathlib

/-!
Verification of the Robot-Terrain movement demo.

The repository has two variants of the same demo:
* the closed-form variant (`src/unnamed/part_000`): terrain height is an
  analytic sum of sinusoids (`getTerrainHeight`), movement is along fixed
  world axes;
* the tiled variant (`src/main.js`): terrain is a 3x3 grid of cloned mesh
  tiles, ground height is obtained by casting a downward ray against every
  tile, movement is camera-relative, and the tile grid is recentered around
  the actor (`repositionTerrain`).

JavaScript numbers are embedded as rationals (exact field arithmetic); the
opaque transcendental collaborators (`Math.sin`, `Math.cos`, `Math.sqrt`,
`Math.atan2`, quaternion slerp, the GLB tile geometry hit by the raycaster)
are taken as explicit function parameters, so every definition below is a
computable function of its inputs, exactly mirroring the control flow and
arithmetic of the source.
-/

namespace RobotTerrain

/-- Held-key flags, mirroring `const keys = { w, a, s, d, shift }` of both
variants. -/
structure Keys where
  w : Bool
  a : Bool
  s : Bool
  d : Bool
  shift : Bool
deriving DecidableEq, Repr

/-- The state in which no key is held (the startup value of `keys`). -/
def Keys.noneHeld : Keys := ⟨false, false, false, false, false⟩

/-- A three-component vector over exact rationals, mirroring
`THREE.Vector3`. -/
structure Vec3 where
  x : ℚ
  y : ℚ
  z : ℚ
deriving DecidableEq, Repr

def Vec3.add (u v : Vec3) : Vec3 := ⟨u.x + v.x, u.y + v.y, u.z + v.z⟩

def Vec3.sub (u v : Vec3) : Vec3 := ⟨u.x - v.x, u.y - v.y, u.z - v.z⟩

def Vec3.smul (c : ℚ) (v : Vec3) : Vec3 := ⟨c * v.x, c * v.y, c * v.z⟩

/-- `THREE.Vector3.cross`: the cross product. -/
def Vec3.cross (u v : Vec3) : Vec3 :=
  ⟨u.y * v.z - u.z * v.y, u.z * v.x - u.x * v.z, u.x * v.y - u.y * v.x⟩

/-- `THREE.Vector3.length`: `Math.sqrt(x*x + y*y + z*z)`, with `Math.sqrt`
passed in as the opaque collaborator `sqrtq`. -/
def Vec3.length (sqrtq : ℚ → ℚ) (v : Vec3) : ℚ :=
  sqrtq (v.x * v.x + v.y * v.y + v.z * v.z)

/-- `THREE.Vector3.normalize`: `divideScalar(this.length() || 1)` — the
division is guarded, a zero-length vector is divided by 1. -/
def Vec3.normalize (sqrtq : ℚ → ℚ) (v : Vec3) : Vec3 :=
  let l := v.length sqrtq
  let d := if l = 0 then 1 else l
  ⟨v.x / d, v.y / d, v.z / d⟩

/-- The animation crossfade bookkeeping of `fadeToAction`: which action is
active and which one is fading out. -/
structure AnimState where
  activeAction : String
  previousAction : Option String
deriving DecidableEq, Repr

/-- `fadeToAction(name, duration)` (identical in both variants): if the
requested action is already active it returns at once; otherwise the active
action starts fading out and the requested action becomes active. -/
def fadeToAction (a : AnimState) (name : String) : AnimState :=
  if a.activeAction = name then a
  else ⟨name, some a.activeAction⟩

/-- `createGUI` ends with `activeAction = actions['Walking']; activeAction.play()`
in both variants, so this is the animation state right after model load. -/
def initAnim : AnimState := ⟨"Walking", none⟩

/-- `const moveSpeed = 0.1` (both variants). -/
def moveSpeed : ℚ := 0.1

/-! ## Closed-form variant (`src/unnamed/part_000`) -/

/-- `const TERRAIN_HEIGHT = 5`. -/
def TERRAIN_HEIGHT : ℚ := 5

/-- `getTerrainHeight(x, z)` of the closed-form variant:
`Math.sin(x * 0.1) * Math.cos(z * 0.1) * TERRAIN_HEIGHT +
 Math.sin(x * 0.2 + z * 0.2) * TERRAIN_HEIGHT * 0.5`,
with `Math.sin` and `Math.cos` passed in as the opaque collaborators
`sinq` and `cosq`. -/
def getTerrainHeight (sinq cosq : ℚ → ℚ) (x z : ℚ) : ℚ :=
  sinq (x * 0.1) * cosq (z * 0.1) * TERRAIN_HEIGHT +
    sinq (x * 0.2 + z * 0.2) * TERRAIN_HEIGHT * 0.5

/-- The analytic reference sum written in the spec:
`sin(x·f1)·cos(z·f1)·A + sin((x+z)·f2)·A/2` with `f1 = 0.1`, `f2 = 0.2`,
`A = TERRAIN_HEIGHT`.  This definition follows the spec text, to be compared
against `getTerrainHeight`, which follows the source. -/
def heightRefSpec (sinq cosq : ℚ → ℚ) (x z : ℚ) : ℚ :=
  sinq (x * 0.1) * cosq (z * 0.1) * TERRAIN_HEIGHT +
    sinq ((x + z) * 0.2) * (TERRAIN_HEIGHT / 2)

/-- The `moveDirection` vector built by `updateRobotMovement` of the
closed-form variant from the held keys:
`w: z -= 1; s: z += 1; a: x -= 1; d: x += 1`. -/
def moveDirectionOf (keys : Keys) : Vec3 :=
  let d0 : Vec3 := ⟨0, 0, 0⟩
  let d1 := if keys.w then { d0 with z := d0.z - 1 } else d0
  let d2 := if keys.s then { d1 with z := d1.z + 1 } else d1
  let d3 := if keys.a then { d2 with x := d2.x - 1 } else d2
  let d4 := if keys.d then { d3 with x := d3.x + 1 } else d3
  d4

/-- Actor state of the closed-form variant: `model.position`,
`model.rotation.y`, the `currentMovement` locomotion string and the
crossfade state. -/
structure CFState where
  pos : Vec3
  rotY : ℚ
  currentMovement : String
  anim : AnimState
deriving DecidableEq, Repr

/-- `updateRobotMovement()` of the closed-form variant.  `atan2q` is the
opaque `Math.atan2` collaborator.  If the summed direction has positive
length it is normalized, the position advances by `direction * speed`
(speed doubled while shift is held), the height is snapped to
`getTerrainHeight` at the new (x,z), the actor turns to
`atan2(direction.x, direction.z)`, and the locomotion state fades to
Running/Walking on change; otherwise the state fades to Idle on change. -/
def updateRobotMovement (sinq cosq sqrtq : ℚ → ℚ) (atan2q : ℚ → ℚ → ℚ)
    (keys : Keys) (s : CFState) : CFState :=
  let md := moveDirectionOf keys
  if 0 < md.length sqrtq then
    let dir := md.normalize sqrtq
    let speed := if keys.shift then moveSpeed * 2 else moveSpeed
    let nx := s.pos.x + dir.x * speed
    let nz := s.pos.z + dir.z * speed
    let ny := getTerrainHeight sinq cosq nx nz
    let rot := atan2q dir.x dir.z
    if keys.shift ∧ s.currentMovement ≠ "Running" then
      ⟨⟨nx, ny, nz⟩, rot, "Running", fadeToAction s.anim "Running"⟩
    else if ¬ keys.shift ∧ s.currentMovement ≠ "Walking" then
      ⟨⟨nx, ny, nz⟩, rot, "Walking", fadeToAction s.anim "Walking"⟩
    else
      ⟨⟨nx, ny, nz⟩, rot, s.currentMovement, s.anim⟩
  else if s.currentMovement ≠ "Idle" then
    { s with currentMovement := "Idle", anim := fadeToAction s.anim "Idle" }
  else
    s

/-- `n` consecutive frames of `updateRobotMovement` with a fixed held-key
state. -/
def runTicks (sinq cosq sqrtq : ℚ → ℚ) (atan2q : ℚ → ℚ → ℚ) (keys : Keys) :
    ℕ → CFState → CFState
  | 0, s => s
  | n + 1, s =>
      runTicks sinq cosq sqrtq atan2q keys n
        (updateRobotMovement sinq cosq sqrtq atan2q keys s)

/-! ## Tiled variant (`src/main.js`) -/

/-- `let tileSize = 20`. -/
def tileSize : ℚ := 20

/-- `scaleFactor = 5`. -/
def scaleFactor : ℚ := 5

/-- `tileSize * scaleFactor * 0.99` — the slight overlap hides seams between
adjacent tiles (used identically in `createTerrainGrid` and
`repositionTerrain`). -/
def tileSpacing : ℚ := tileSize * scaleFactor * 0.99

/-- JavaScript `Math.round`: round half toward positive infinity,
`⌊q + 1/2⌋`. -/
def jsRound (q : ℚ) : ℤ := ⌊q + 1 / 2⌋

/-- The `(i, j)` pairs visited by the nested
`for (i = -1..1) for (j = -1..1)` loop of `repositionTerrain`, in loop
order. -/
def gridOffsets : List (ℤ × ℤ) :=
  [(-1, -1), (-1, 0), (-1, 1), (0, -1), (0, 0), (0, 1), (1, -1), (1, 0), (1, 1)]

/-- The assignment loop of `repositionTerrain`: the `idx`-th tile (when it
exists) is placed at `(centerX + i·spacing, 0, centerZ + j·spacing)` for the
`idx`-th `(i, j)` pair; `idx` advances only when a tile was assigned, so
tiles and offsets are consumed in lockstep and tiles beyond the offset list
are left untouched. -/
def assignTiles (centerX centerZ : ℚ) : List (ℤ × ℤ) → List Vec3 → List Vec3
  | _, [] => []
  | [], ts => ts
  | (i, j) :: offs, _ :: ts =>
      ⟨centerX + i * tileSpacing, 0, centerZ + j * tileSpacing⟩ ::
        assignTiles centerX centerZ offs ts

/-- `repositionTerrain()` of the tiled variant: the grid cell containing the
actor is found by rounding `pos / spacing` per axis, and each of the 3×3
tiles is assigned `center + offset × spacing` in a fixed loop order. -/
def repositionTerrain (pos : Vec3) (tiles : List Vec3) : List Vec3 :=
  let centerX := (jsRound (pos.x / tileSpacing) : ℚ) * tileSpacing
  let centerZ := (jsRound (pos.z / tileSpacing) : ℚ) * tileSpacing
  assignTiles centerX centerZ gridOffsets tiles

/-- One intersection returned by `raycaster.intersectObject(tile, true)`:
its ray `distance` and the world height `point.y` of the contact point. -/
structure Hit where
  distance : ℚ
  pointY : ℚ
deriving DecidableEq, Repr

/-- The hit-collection loop of `updateRobotMovement` (main.js): the hits of
every tile are pushed into one `intersections` array, in tile order. -/
def collectHits (tileHits : List (List Hit)) : List Hit :=
  tileHits.foldl (fun acc hits => acc ++ hits) []

/-- The comparator `(a, b) => a.distance - b.distance` of the sort call of
`updateRobotMovement` (main.js), as the boolean ordering it induces:
ascending ray distance. -/
def hitLE (a b : Hit) : Bool := decide (a.distance ≤ b.distance)

/-- The ray-height selection of `updateRobotMovement` (main.js): all hits
from all tiles are sorted by ascending ray distance
(`sort((a, b) => a.distance - b.distance)`, a stable sort) and the first
one's `point.y` is taken; with no intersections the height defaults to
`0`. -/
def terrainRayHeight (tileHits : List (List Hit)) : ℚ :=
  match (collectHits tileHits).mergeSort hitLE with
  | h :: _ => h.pointY
  | [] => 0

/-- A quaternion `(x, y, z, w)`, kept abstract: slerp is an opaque
collaborator. -/
abbrev Quat := ℚ × ℚ × ℚ × ℚ

/-- Actor state of the tiled variant: position, orientation quaternion,
locomotion string, crossfade state and the world positions of the terrain
tiles. -/
structure TiledState where
  pos : Vec3
  quat : Quat
  currentMovement : String
  anim : AnimState
  tiles : List Vec3
deriving DecidableEq, Repr

/-- The `direction` vector of `updateRobotMovement` (main.js), composed from
the held keys and the camera-derived `forward` and `right` vectors:
`w: add forward; s: sub forward; a: sub right; d: add right`. -/
def composeDirection (keys : Keys) (forward rightv : Vec3) : Vec3 :=
  let d0 : Vec3 := ⟨0, 0, 0⟩
  let d1 := if keys.w then d0.add forward else d0
  let d2 := if keys.s then d1.sub forward else d1
  let d3 := if keys.a then d2.sub rightv else d2
  let d4 := if keys.d then d3.add rightv else d3
  d4

/-- `updateRobotMovement()` of the tiled variant.  `cameraForward` is the
camera's world direction; `rayHits` is the opaque geometry collaborator
giving, for the current tile positions, the per-tile hit lists of a ray cast
downward from `(x, 20, z)`; `setFromUnitVectors` and `slerpq` are the opaque
quaternion collaborators.  It early-returns when no tiles are loaded;
otherwise it projects the camera basis onto the horizontal plane, composes
and normalizes the key direction, advances the position by
`direction × speed`, snaps the height to the closest tile intersection
(default 0), slerps the orientation toward the movement direction, fades the
locomotion state on change, and finally recenters the tile grid. -/
def updateRobotMovementTiled (sqrtq : ℚ → ℚ)
    (setFromUnitVectors : Vec3 → Vec3 → Quat) (slerpq : Quat → Quat → ℚ → Quat)
    (rayHits : List Vec3 → ℚ → ℚ → List (List Hit))
    (cameraForward : Vec3) (keys : Keys) (s : TiledState) : TiledState :=
  if s.tiles = [] then s
  else
    let forward := Vec3.normalize sqrtq ⟨cameraForward.x, 0, cameraForward.z⟩
    let rightv := (forward.cross ⟨0, 1, 0⟩).normalize sqrtq
    let dir0 := composeDirection keys forward rightv
    if 0 < dir0.length sqrtq then
      let dir := dir0.normalize sqrtq
      let speed := if keys.shift then moveSpeed * 2 else moveSpeed
      let np := s.pos.add (dir.smul speed)
      let ny := terrainRayHeight (rayHits s.tiles np.x np.z)
      let np2 : Vec3 := ⟨np.x, ny, np.z⟩
      let targetQ := setFromUnitVectors ⟨0, 0, 1⟩ (dir.normalize sqrtq)
      let q := slerpq s.quat targetQ 0.2
      if keys.shift ∧ s.currentMovement ≠ "Running" then
        ⟨np2, q, "Running", fadeToAction s.anim "Running",
          repositionTerrain np2 s.tiles⟩
      else if ¬ keys.shift ∧ s.currentMovement ≠ "Walking" then
        ⟨np2, q, "Walking", fadeToAction s.anim "Walking",
          repositionTerrain np2 s.tiles⟩
      else
        ⟨np2, q, s.currentMovement, s.anim, repositionTerrain np2 s.tiles⟩
    else if s.currentMovement ≠ "Idle" then
      { s with currentMovement := "Idle", anim := fadeToAction s.anim "Idle" }
    else s

/-- `n` consecutive frames of the tiled `updateRobotMovement` with a fixed
held-key state and camera. -/
def runTicksTiled (sqrtq : ℚ → ℚ) (setFromUnitVectors : Vec3 → Vec3 → Quat)
    (slerpq : Quat → Quat → ℚ → Quat)
    (rayHits : List Vec3 → ℚ → ℚ → List (List Hit)) (cameraForward : Vec3)
    (keys : Keys) : ℕ → TiledState → TiledState
  | 0, s => s
  | n + 1, s =>
      runTicksTiled sqrtq setFromUnitVectors slerpq rayHits cameraForward keys n
        (updateRobotMovementTiled sqrtq setFromUnitVectors slerpq rayHits
          cameraForward keys s)

/-! ## Animation controller events (both variants share this wiring) -/

/-- Controller state: the crossfade state, the recorded locomotion string
`currentMovement`, and whether `restoreState` is currently registered as the
mixer's `finished` listener.  A `Bool` suffices because THREE's
`EventDispatcher.addEventListener` ignores a listener that is already
registered, so arming is idempotent. -/
structure ControllerState where
  anim : AnimState
  currentMovement : String
  finishedListenerArmed : Bool
deriving DecidableEq, Repr

/-- The externally-triggered controller operations:
* `emoteButton name` — a GUI emote button: `fadeToAction(name, 0.2);
  mixer.addEventListener('finished', restoreState)`;
* `spaceKeyJump` — `onKeyDown` for the space key: `fadeToAction('Jump', 0.2)`
  with no listener registration;
* `mixerFinished` — the mixer dispatches `finished` after a `LoopOnce`
  action plays through; `restoreState` (when registered) removes itself and
  fades to `currentMovement`;
* `stateSelect name` — the GUI states dropdown: `currentMovement = api.state;
  fadeToAction(api.state, 0.5)`. -/
inductive UIEvent where
  | emoteButton (name : String)
  | spaceKeyJump
  | mixerFinished
  | stateSelect (name : String)
deriving DecidableEq, Repr

/-- One controller step for one `UIEvent`, mirroring `createGUI`,
`onKeyDown` and `restoreState`. -/
def stepEvent (s : ControllerState) (e : UIEvent) : ControllerState :=
  match e with
  | UIEvent.emoteButton name =>
      ⟨fadeToAction s.anim name, s.currentMovement, true⟩
  | UIEvent.spaceKeyJump =>
      ⟨fadeToAction s.anim "Jump", s.currentMovement, s.finishedListenerArmed⟩
  | UIEvent.mixerFinished =>
      if s.finishedListenerArmed then
        ⟨fadeToAction s.anim s.currentMovement, s.currentMovement, false⟩
      else s
  | UIEvent.stateSelect name =>
      ⟨fadeToAction s.anim name, name, s.finishedListenerArmed⟩

/-! ## The frame loop -/

/-- One frame callback `animate()` (identical structure in both variants):
the per-frame steps (`mixer.update`, `updateRobotMovement`, the camera
update, `renderer.render`, `stats.update`) run in sequence with no
`try`/`catch` anywhere; each step is represented by its outcome, and a step
that throws aborts the frame with its exception propagating out of the
callback. -/
def animateFrame : List (Except String Unit) → Except String Unit
  | [] => Except.ok ()
  | step :: rest =>
      match step with
      | Except.ok _ => animateFrame rest
      | Except.error e => Except.error e

/-! ## Helper lemmas -/

lemma foldl_append_eq (acc : List Hit) (l : List (List Hit)) :
    l.foldl (fun acc hits => acc ++ hits) acc = acc ++ l.flatten := by
  induction l generalizing acc with
  | nil => simp
  | cons hd tl ih => simp [List.foldl_cons, ih]

lemma collectHits_eq_flatten (tileHits : List (List Hit)) :
    collectHits tileHits = tileHits.flatten := by
  unfold collectHits
  simpa using foldl_append_eq [] tileHits

lemma fadeToAction_active (a : AnimState) (name : String) :
    (fadeToAction a name).activeAction = name := by
  unfold fadeToAction
  split
  · next h => exact h
  · rfl

lemma assignTiles_idem (cX cZ : ℚ) (offs : List (ℤ × ℤ)) (ts : List Vec3) :
    assignTiles cX cZ offs (assignTiles cX cZ offs ts)
      = assignTiles cX cZ offs ts := by
  induction offs generalizing ts with
  | nil => cases ts <;> rfl
  | cons o offs ih =>
      cases ts with
      | nil => rfl
      | cons t ts =>
          obtain ⟨i, j⟩ := o
          simp only [assignTiles]
          exact congrArg _ (ih ts)

/-! ## Theorems -/

/-- C1: in the closed-form variant, `getTerrainHeight(x, z)` equals the
analytic reference sum `sin(x·f1)·cos(z·f1)·A + sin((x+z)·f2)·A/2`
(`f1 = 0.1`, `f2 = 0.2`, `A = TERRAIN_HEIGHT = 5`) for every `(x, z)` and
every interpretation of the sine/cosine collaborators, and the function is
pure: it is a mathematical function of `(x, z)` alone, so two calls at the
same point — in any call order — return identical results. -/
theorem c1_closed_form_height (sinq cosq : ℚ → ℚ) (x z : ℚ) :
    getTerrainHeight sinq cosq x z = heightRefSpec sinq cosq x z ∧
    getTerrainHeight sinq cosq x z = getTerrainHeight sinq cosq x z := by
  refine ⟨?_, rfl⟩
  unfold getTerrainHeight heightRefSpec TERRAIN_HEIGHT
  have harg : x * 0.2 + z * 0.2 = (x + z) * 0.2 := by ring
  rw [harg]
  ring

/-- C7: in the tiled variant, when the downward ray intersects no tile (every
per-tile hit list is empty), the resulting height is exactly the defined
default `0` — a total, well-defined value, not an error — because the code
takes the `else` branch `newPos.y = 0` instead of propagating the miss. -/
theorem c7_raycast_miss_defaults_to_zero (tileHits : List (List Hit))
    (h : ∀ l ∈ tileHits, l = []) :
    terrainRayHeight tileHits = 0 ∧ collectHits tileHits = [] := by
  have hc : collectHits tileHits = [] := by
    rw [collectHits_eq_flatten]
    exact List.flatten_eq_nil_iff.mpr h
  refine ⟨?_, hc⟩
  unfold terrainRayHeight
  rw [hc, List.mergeSort_nil]

/-- C7 witness: two loaded tiles, both missed by the ray. -/
theorem c7_witness :
    terrainRayHeight [[], []] = 0 ∧ collectHits [[], []] = [] :=
  c7_raycast_miss_defaults_to_zero [[], []] (by decide)

/-- C8: `repositionTerrain` is idempotent — applying it twice in a row with
the same actor position assigns every tile exactly the world position a
single application assigns, for every tile list (the computed positions
depend only on the actor position, via per-axis rounding against the tile
spacing and the fixed loop-order slot-to-offset mapping, never on the tiles'
previous positions). -/
theorem c8_recenter_idempotent (pos : Vec3) (tiles : List Vec3) :
    repositionTerrain pos (repositionTerrain pos tiles)
      = repositionTerrain pos tiles := by
  unfold repositionTerrain
  exact assignTiles_idem _ _ _ _

/-- C4 counterexample: `Jump` is a one-shot overlay action, but when it is
triggered by the space key (`onKeyDown`), `restoreState` is never registered
as the mixer's `finished` listener, so when the overlay finishes nothing
transitions back: starting from the post-load state (active action
`Walking`, recorded locomotion `Idle`), pressing space and letting the jump
finish leaves `Jump` as the active action, different from the recorded
locomotion state. -/
theorem c4_counterexample :
    (stepEvent (stepEvent ⟨initAnim, "Idle", false⟩ UIEvent.spaceKeyJump)
        UIEvent.mixerFinished).anim.activeAction = "Jump" ∧
    (stepEvent (stepEvent ⟨initAnim, "Idle", false⟩ UIEvent.spaceKeyJump)
        UIEvent.mixerFinished).anim.activeAction ≠
      (stepEvent (stepEvent ⟨initAnim, "Idle", false⟩ UIEvent.spaceKeyJump)
        UIEvent.mixerFinished).currentMovement := by
  constructor
  · rfl
  · decide

/-- C4 (amended): overlays triggered through the emote debug panel do carry
the automatic return path — every panel trigger re-arms the `finished`
listener, and when the overlay finishes the controller fades back to the
locomotion state recorded in `currentMovement`, consuming the listener
exactly once, so a second `finished` event produces no duplicate return
transition.  (`Jump` triggered via the space key is the exception: it never
arms the listener, see the counterexample.) -/
theorem c4_panel_overlay_restores (s : ControllerState) (name : String) :
    ((stepEvent s (UIEvent.emoteButton name)).finishedListenerArmed = true) ∧
    ((stepEvent (stepEvent s (UIEvent.emoteButton name)) UIEvent.mixerFinished).anim.activeAction
      = (stepEvent s (UIEvent.emoteButton name)).currentMovement) ∧
    ((stepEvent (stepEvent s (UIEvent.emoteButton name)) UIEvent.mixerFinished).finishedListenerArmed
      = false) ∧
    (stepEvent (stepEvent (stepEvent s (UIEvent.emoteButton name)) UIEvent.mixerFinished)
        UIEvent.mixerFinished
      = stepEvent (stepEvent s (UIEvent.emoteButton name)) UIEvent.mixerFinished) := by
  refine ⟨rfl, ?_, rfl, rfl⟩
  exact fadeToAction_active _ _

/-- C9 counterexample: the per-frame callback `animate()` contains no
`try`/`catch`, so a frame in which a step throws does not complete as a
skipped frame — the exception propagates out of the callback. -/
theorem c9_counterexample :
    animateFrame [Except.error "terrain query failed"]
        = Except.error "terrain query failed" ∧
    animateFrame [Except.error "terrain query failed"]
        ≠ (Except.ok () : Except String Unit) := by
  exact ⟨rfl, fun h => by cases h⟩

/-- C9 (amended): no exception raised inside the per-frame tick is caught at
the frame-loop boundary — `animate()` runs its steps in order and the first
step that throws aborts the frame, with the exception propagating unchanged
out of the frame callback instead of the frame being skipped. -/
theorem c9_frame_fault_propagates (pre : List (Except String Unit)) (e : String)
    (rest : List (Except String Unit)) (h : ∀ s ∈ pre, s = Except.ok ()) :
    animateFrame (pre ++ Except.error e :: rest) = Except.error e := by
  induction pre with
  | nil => rfl
  | cons p pre ih =>
      have hp : p = Except.ok () := h p (List.mem_cons_self p pre)
      subst hp
      exact ih fun s hs => h s (List.mem_cons_of_mem _ hs)

/-- C9 witness: the `mixer.update` step succeeds, then the movement step
throws; the frame aborts with that exception. -/
theorem c9_witness :
    animateFrame ([Except.ok ()] ++ Except.error "boom" :: [])
      = Except.error "boom" :=
  c9_frame_fault_propagates [Except.ok ()] "boom" []
    (by intro s hs; simpa using hs)

/-! ## Zero-direction tick lemmas -/

lemma zeroVec_length (sqrtq : ℚ → ℚ) (h0 : sqrtq 0 = 0) :
    Vec3.length sqrtq ⟨0, 0, 0⟩ = 0 := by
  unfold Vec3.length
  rw [show ((0 : ℚ) * 0 + 0 * 0 + 0 * 0) = 0 by norm_num]
  exact h0

lemma moveDirectionOf_opposing (b : Bool) :
    moveDirectionOf ⟨true, false, true, false, b⟩ = ⟨0, 0, 0⟩ := by
  simp [moveDirectionOf]

lemma composeDirection_opposing (b : Bool) (f r : Vec3) :
    composeDirection ⟨true, false, true, false, b⟩ f r = ⟨0, 0, 0⟩ := by
  simp [composeDirection, Vec3.add, Vec3.sub]

lemma composeDirection_noneDir (b : Bool) (f r : Vec3) :
    composeDirection ⟨false, false, false, false, b⟩ f r = ⟨0, 0, 0⟩ := rfl

lemma cf_tick_zero_dir (sinq cosq sqrtq : ℚ → ℚ) (at2 : ℚ → ℚ → ℚ)
    (h0 : sqrtq 0 = 0) (keys : Keys) (hk : moveDirectionOf keys = ⟨0, 0, 0⟩)
    (s : CFState) :
    updateRobotMovement sinq cosq sqrtq at2 keys s =
      if s.currentMovement ≠ "Idle" then
        { s with currentMovement := "Idle", anim := fadeToAction s.anim "Idle" }
      else s := by
  simp only [updateRobotMovement, hk, zeroVec_length sqrtq h0, lt_irrefl,
    if_false]

lemma tiled_tick_zero_dir (sqrtq : ℚ → ℚ) (setFU : Vec3 → Vec3 → Quat)
    (slerpq : Quat → Quat → ℚ → Quat)
    (rayHits : List Vec3 → ℚ → ℚ → List (List Hit)) (camF : Vec3)
    (h0 : sqrtq 0 = 0) (keys : Keys)
    (hk : ∀ f r, composeDirection keys f r = ⟨0, 0, 0⟩) (st : TiledState) :
    updateRobotMovementTiled sqrtq setFU slerpq rayHits camF keys st =
      if st.tiles = [] then st
      else if st.currentMovement ≠ "Idle" then
        { st with currentMovement := "Idle", anim := fadeToAction st.anim "Idle" }
      else st := by
  simp only [updateRobotMovementTiled, hk, zeroVec_length sqrtq h0, lt_irrefl,
    if_false]

/-- C3: a tick in which forward and back are both held (and no other
directional key, the sprint modifier arbitrary) produces exactly the same
state as a tick with no directional key held, in both variants: the summed
direction is the zero vector, the guarded `length() > 0` test fails (no
zero-vector normalization is attempted), the position and orientation are
untouched, and the locomotion state becomes — or stays — `Idle`. -/
theorem c3_opposing_keys_cancel (sinq cosq sqrtq : ℚ → ℚ) (at2 : ℚ → ℚ → ℚ)
    (setFU : Vec3 → Vec3 → Quat) (slerpq : Quat → Quat → ℚ → Quat)
    (rayHits : List Vec3 → ℚ → ℚ → List (List Hit)) (camF : Vec3)
    (h0 : sqrtq 0 = 0) (b : Bool) (s : CFState) (st : TiledState) :
    updateRobotMovement sinq cosq sqrtq at2 ⟨true, false, true, false, b⟩ s
      = updateRobotMovement sinq cosq sqrtq at2 ⟨false, false, false, false, b⟩ s ∧
    (updateRobotMovement sinq cosq sqrtq at2 ⟨true, false, true, false, b⟩ s).pos
      = s.pos ∧
    (updateRobotMovement sinq cosq sqrtq at2 ⟨true, false, true, false, b⟩ s).rotY
      = s.rotY ∧
    (updateRobotMovement sinq cosq sqrtq at2 ⟨true, false, true, false, b⟩
      s).currentMovement = "Idle" ∧
    updateRobotMovementTiled sqrtq setFU slerpq rayHits camF
        ⟨true, false, true, false, b⟩ st
      = updateRobotMovementTiled sqrtq setFU slerpq rayHits camF
        ⟨false, false, false, false, b⟩ st ∧
    (st.tiles ≠ [] →
      (updateRobotMovementTiled sqrtq setFU slerpq rayHits camF
        ⟨true, false, true, false, b⟩ st).pos = st.pos ∧
      (updateRobotMovementTiled sqrtq setFU slerpq rayHits camF
        ⟨true, false, true, false, b⟩ st).quat = st.quat ∧
      (updateRobotMovementTiled sqrtq setFU slerpq rayHits camF
        ⟨true, false, true, false, b⟩ st).currentMovement = "Idle") := by
  have hcf := cf_tick_zero_dir sinq cosq sqrtq at2 h0 _
    (moveDirectionOf_opposing b) s
  have hcf0 := cf_tick_zero_dir sinq cosq sqrtq at2 h0
    ⟨false, false, false, false, b⟩ rfl s
  have ht := tiled_tick_zero_dir sqrtq setFU slerpq rayHits camF h0 _
    (composeDirection_opposing b) st
  have ht0 := tiled_tick_zero_dir sqrtq setFU slerpq rayHits camF h0 _
    (composeDirection_noneDir b) st
  refine ⟨hcf.trans hcf0.symm, ?_, ?_, ?_, ht.trans ht0.symm, ?_⟩
  · rw [hcf]; split <;> rfl
  · rw [hcf]; split <;> rfl
  · rw [hcf]; split
    · rfl
    · next hne => simpa using hne
  · intro htiles
    rw [ht, if_neg htiles]
    refine ⟨?_, ?_, ?_⟩
    · split <;> rfl
    · split <;> rfl
    · split
      · rfl
      · next hne => simpa using hne

/-- C3 witness: forward+back with sprint held, from a concrete walking
state, in both variants. -/
theorem c3_witness :
    updateRobotMovement id id id (fun _ _ => 0) ⟨true, false, true, false, true⟩
        ⟨⟨1, 2, 3⟩, 0, "Walking", ⟨"Walking", some "Idle"⟩⟩
      = updateRobotMovement id id id (fun _ _ => 0)
        ⟨false, false, false, false, true⟩
        ⟨⟨1, 2, 3⟩, 0, "Walking", ⟨"Walking", some "Idle"⟩⟩ ∧
    (updateRobotMovement id id id (fun _ _ => 0) ⟨true, false, true, false, true⟩
        ⟨⟨1, 2, 3⟩, 0, "Walking", ⟨"Walking", some "Idle"⟩⟩).pos = ⟨1, 2, 3⟩ ∧
    (updateRobotMovement id id id (fun _ _ => 0) ⟨true, false, true, false, true⟩
        ⟨⟨1, 2, 3⟩, 0, "Walking", ⟨"Walking", some "Idle"⟩⟩).rotY = 0 ∧
    (updateRobotMovement id id id (fun _ _ => 0) ⟨true, false, true, false, true⟩
        ⟨⟨1, 2, 3⟩, 0, "Walking", ⟨"Walking", some "Idle"⟩⟩).currentMovement
      = "Idle" ∧
    updateRobotMovementTiled id (fun _ _ => (0, 0, 0, 1)) (fun q _ _ => q)
        (fun _ _ _ => []) ⟨0, 0, -1⟩ ⟨true, false, true, false, true⟩
        ⟨⟨1, 2, 3⟩, (0, 0, 0, 1), "Walking", ⟨"Walking", some "Idle"⟩, [⟨0, 0, 0⟩]⟩
      = updateRobotMovementTiled id (fun _ _ => (0, 0, 0, 1)) (fun q _ _ => q)
        (fun _ _ _ => []) ⟨0, 0, -1⟩ ⟨false, false, false, false, true⟩
        ⟨⟨1, 2, 3⟩, (0, 0, 0, 1), "Walking", ⟨"Walking", some "Idle"⟩,
          [⟨0, 0, 0⟩]⟩ ∧
    (([⟨0, 0, 0⟩] : List Vec3) ≠ [] →
      (updateRobotMovementTiled id (fun _ _ => (0, 0, 0, 1)) (fun q _ _ => q)
        (fun _ _ _ => []) ⟨0, 0, -1⟩ ⟨true, false, true, false, true⟩
        ⟨⟨1, 2, 3⟩, (0, 0, 0, 1), "Walking", ⟨"Walking", some "Idle"⟩,
          [⟨0, 0, 0⟩]⟩).pos = ⟨1, 2, 3⟩ ∧
      (updateRobotMovementTiled id (fun _ _ => (0, 0, 0, 1)) (fun q _ _ => q)
        (fun _ _ _ => []) ⟨0, 0, -1⟩ ⟨true, false, true, false, true⟩
        ⟨⟨1, 2, 3⟩, (0, 0, 0, 1), "Walking", ⟨"Walking", some "Idle"⟩,
          [⟨0, 0, 0⟩]⟩).quat = (0, 0, 0, 1) ∧
      (updateRobotMovementTiled id (fun _ _ => (0, 0, 0, 1)) (fun q _ _ => q)
        (fun _ _ _ => []) ⟨0, 0, -1⟩ ⟨true, false, true, false, true⟩
        ⟨⟨1, 2, 3⟩, (0, 0, 0, 1), "Walking", ⟨"Walking", some "Idle"⟩,
          [⟨0, 0, 0⟩]⟩).currentMovement = "Idle") :=
  c3_opposing_keys_cancel id id id (fun _ _ => 0) (fun _ _ => (0, 0, 0, 1))
    (fun q _ _ => q) (fun _ _ _ => []) ⟨0, 0, -1⟩ rfl true
    ⟨⟨1, 2, 3⟩, 0, "Walking", ⟨"Walking", some "Idle"⟩⟩
    ⟨⟨1, 2, 3⟩, (0, 0, 0, 1), "Walking", ⟨"Walking", some "Idle"⟩, [⟨0, 0, 0⟩]⟩

lemma cf_run_noop (sinq cosq sqrtq : ℚ → ℚ) (at2 : ℚ → ℚ → ℚ) (keys : Keys)
    (n : ℕ) (s : CFState)
    (hstep : updateRobotMovement sinq cosq sqrtq at2 keys s = s) :
    runTicks sinq cosq sqrtq at2 keys n s = s := by
  induction n with
  | zero => rfl
  | succ n ih =>
      have hrw : runTicks sinq cosq sqrtq at2 keys (n + 1) s
          = runTicks sinq cosq sqrtq at2 keys n
            (updateRobotMovement sinq cosq sqrtq at2 keys s) := rfl
      rw [hrw, hstep]
      exact ih

lemma tiled_run_noop (sqrtq : ℚ → ℚ) (setFU : Vec3 → Vec3 → Quat)
    (slerpq : Quat → Quat → ℚ → Quat)
    (rayHits : List Vec3 → ℚ → ℚ → List (List Hit)) (camF : Vec3) (keys : Keys)
    (n : ℕ) (st : TiledState)
    (hstep : updateRobotMovementTiled sqrtq setFU slerpq rayHits camF keys st = st) :
    runTicksTiled sqrtq setFU slerpq rayHits camF keys n st = st := by
  induction n with
  | zero => rfl
  | succ n ih =>
      have hrw : runTicksTiled sqrtq setFU slerpq rayHits camF keys (n + 1) st
          = runTicksTiled sqrtq setFU slerpq rayHits camF keys n
            (updateRobotMovementTiled sqrtq setFU slerpq rayHits camF keys st) := rfl
      rw [hrw, hstep]
      exact ih

/-- C10: after model load the active animation action is `Walking`
(`activeAction = actions['Walking']; activeAction.play()`) while the
recorded locomotion state `currentMovement` is the untouched startup value
`Idle`; and as long as no directional key is held and no panel/emote
operation fires, every frame leaves the whole state unchanged — the zero
direction vector sends the tick into the `currentMovement !== 'Idle'` guard,
which fails, so no transition to `Idle` ever fires and the stationary actor
keeps playing the Walking animation.  This holds in both variants. -/
theorem c10_stationary_plays_walking (sinq cosq sqrtq : ℚ → ℚ)
    (at2 : ℚ → ℚ → ℚ) (setFU : Vec3 → Vec3 → Quat)
    (slerpq : Quat → Quat → ℚ → Quat)
    (rayHits : List Vec3 → ℚ → ℚ → List (List Hit)) (camF : Vec3)
    (h0 : sqrtq 0 = 0) (n : ℕ) (s : CFState) (st : TiledState)
    (hs : s.currentMovement = "Idle") (ha : s.anim = initAnim)
    (hts : st.currentMovement = "Idle") (hta : st.anim = initAnim) :
    runTicks sinq cosq sqrtq at2 Keys.noneHeld n s = s ∧
    (runTicks sinq cosq sqrtq at2 Keys.noneHeld n s).anim.activeAction
      = "Walking" ∧
    (runTicks sinq cosq sqrtq at2 Keys.noneHeld n s).currentMovement = "Idle" ∧
    runTicksTiled sqrtq setFU slerpq rayHits camF Keys.noneHeld n st = st ∧
    (runTicksTiled sqrtq setFU slerpq rayHits camF Keys.noneHeld n
      st).anim.activeAction = "Walking" ∧
    (runTicksTiled sqrtq setFU slerpq rayHits camF Keys.noneHeld n
      st).currentMovement = "Idle" := by
  have hstep : updateRobotMovement sinq cosq sqrtq at2 Keys.noneHeld s = s := by
    rw [cf_tick_zero_dir sinq cosq sqrtq at2 h0 Keys.noneHeld rfl s,
      if_neg (by simp [hs])]
  have htstep : updateRobotMovementTiled sqrtq setFU slerpq rayHits camF
      Keys.noneHeld st = st := by
    rw [tiled_tick_zero_dir sqrtq setFU slerpq rayHits camF h0 Keys.noneHeld
      (fun _ _ => rfl) st]
    split
    · rfl
    · rw [if_neg (by simp [hts])]
  have hrun := cf_run_noop sinq cosq sqrtq at2 Keys.noneHeld n s hstep
  have htrun := tiled_run_noop sqrtq setFU slerpq rayHits camF Keys.noneHeld n
    st htstep
  refine ⟨hrun, ?_, ?_, htrun, ?_, ?_⟩
  · rw [hrun, ha]; rfl
  · rw [hrun, hs]
  · rw [htrun, hta]; rfl
  · rw [htrun, hts]

/-- C10 witness: three no-input frames from the post-load state in both
variants. -/
theorem c10_witness :
    runTicks id id id (fun _ _ => 0) Keys.noneHeld 3
        ⟨⟨0, 0, 0⟩, 0, "Idle", initAnim⟩ = ⟨⟨0, 0, 0⟩, 0, "Idle", initAnim⟩ ∧
    (runTicks id id id (fun _ _ => 0) Keys.noneHeld 3
        ⟨⟨0, 0, 0⟩, 0, "Idle", initAnim⟩).anim.activeAction = "Walking" ∧
    (runTicks id id id (fun _ _ => 0) Keys.noneHeld 3
        ⟨⟨0, 0, 0⟩, 0, "Idle", initAnim⟩).currentMovement = "Idle" ∧
    runTicksTiled id (fun _ _ => (0, 0, 0, 1)) (fun q _ _ => q)
        (fun _ _ _ => []) ⟨0, 0, -1⟩ Keys.noneHeld 3
        ⟨⟨0, 0, 0⟩, (0, 0, 0, 1), "Idle", initAnim, [⟨0, 0, 0⟩]⟩
      = ⟨⟨0, 0, 0⟩, (0, 0, 0, 1), "Idle", initAnim, [⟨0, 0, 0⟩]⟩ ∧
    (runTicksTiled id (fun _ _ => (0, 0, 0, 1)) (fun q _ _ => q)
        (fun _ _ _ => []) ⟨0, 0, -1⟩ Keys.noneHeld 3
        ⟨⟨0, 0, 0⟩, (0, 0, 0, 1), "Idle", initAnim,
          [⟨0, 0, 0⟩]⟩).anim.activeAction = "Walking" ∧
    (runTicksTiled id (fun _ _ => (0, 0, 0, 1)) (fun q _ _ => q)
        (fun _ _ _ => []) ⟨0, 0, -1⟩ Keys.noneHeld 3
        ⟨⟨0, 0, 0⟩, (0, 0, 0, 1), "Idle", initAnim,
          [⟨0, 0, 0⟩]⟩).currentMovement = "Idle" :=
  c10_stationary_plays_walking id id id (fun _ _ => 0) (fun _ _ => (0, 0, 0, 1))
    (fun q _ _ => q) (fun _ _ _ => []) ⟨0, 0, -1⟩ rfl 3
    ⟨⟨0, 0, 0⟩, 0, "Idle", initAnim⟩
    ⟨⟨0, 0, 0⟩, (0, 0, 0, 1), "Idle", initAnim, [⟨0, 0, 0⟩]⟩ rfl rfl rfl rfl

/-! ## Holding forward: per-tick and accumulated displacement -/

lemma moveDirectionOf_forward (b : Bool) :
    moveDirectionOf ⟨true, false, false, false, b⟩ = ⟨0, 0, -1⟩ := by
  simp [moveDirectionOf]

lemma forward_length (sqrtq : ℚ → ℚ) (h1 : sqrtq 1 = 1) :
    Vec3.length sqrtq ⟨0, 0, -1⟩ = 1 := by
  unfold Vec3.length
  rw [show ((0 : ℚ) * 0 + 0 * 0 + -1 * -1) = 1 by norm_num]
  exact h1

lemma forward_normalize (sqrtq : ℚ → ℚ) (h1 : sqrtq 1 = 1) :
    Vec3.normalize sqrtq ⟨0, 0, -1⟩ = ⟨0, 0, -1⟩ := by
  unfold Vec3.normalize
  rw [forward_length sqrtq h1]
  norm_num

lemma cf_tick_forward_walk (sinq cosq sqrtq : ℚ → ℚ) (at2 : ℚ → ℚ → ℚ)
    (h1 : sqrtq 1 = 1) (s : CFState) :
    (updateRobotMovement sinq cosq sqrtq at2 ⟨true, false, false, false, false⟩
      s).pos.x = s.pos.x ∧
    (updateRobotMovement sinq cosq sqrtq at2 ⟨true, false, false, false, false⟩
      s).pos.z = s.pos.z - moveSpeed ∧
    (updateRobotMovement sinq cosq sqrtq at2 ⟨true, false, false, false, false⟩
      s).currentMovement = "Walking" := by
  simp only [updateRobotMovement, moveDirectionOf_forward,
    forward_length sqrtq h1, forward_normalize sqrtq h1]
  norm_num
  by_cases hcm : s.currentMovement = "Walking" <;> simp [hcm] <;> ring

lemma cf_tick_forward_run (sinq cosq sqrtq : ℚ → ℚ) (at2 : ℚ → ℚ → ℚ)
    (h1 : sqrtq 1 = 1) (s : CFState) :
    (updateRobotMovement sinq cosq sqrtq at2 ⟨true, false, false, false, true⟩
      s).pos.x = s.pos.x ∧
    (updateRobotMovement sinq cosq sqrtq at2 ⟨true, false, false, false, true⟩
      s).pos.z = s.pos.z - moveSpeed * 2 ∧
    (updateRobotMovement sinq cosq sqrtq at2 ⟨true, false, false, false, true⟩
      s).currentMovement = "Running" := by
  simp only [updateRobotMovement, moveDirectionOf_forward,
    forward_length sqrtq h1, forward_normalize sqrtq h1]
  norm_num
  by_cases hcm : s.currentMovement = "Running" <;> simp [hcm] <;> ring

lemma cf_run_forward_walk (sinq cosq sqrtq : ℚ → ℚ) (at2 : ℚ → ℚ → ℚ)
    (h1 : sqrtq 1 = 1) (n : ℕ) (s : CFState) :
    (runTicks sinq cosq sqrtq at2 ⟨true, false, false, false, false⟩ n s).pos.x
      = s.pos.x ∧
    (runTicks sinq cosq sqrtq at2 ⟨true, false, false, false, false⟩ n s).pos.z
      = s.pos.z - n * moveSpeed ∧
    (n ≠ 0 → (runTicks sinq cosq sqrtq at2 ⟨true, false, false, false, false⟩ n
      s).currentMovement = "Walking") := by
  induction n generalizing s with
  | zero =>
      refine ⟨rfl, ?_, fun h => absurd rfl h⟩
      show s.pos.z = s.pos.z - ((0 : ℕ) : ℚ) * moveSpeed
      push_cast; ring
  | succ n ih =>
      obtain ⟨hx1, hz1, hcm1⟩ := cf_tick_forward_walk sinq cosq sqrtq at2 h1 s
      obtain ⟨hx, hz, hcm⟩ :=
        ih (updateRobotMovement sinq cosq sqrtq at2
          ⟨true, false, false, false, false⟩ s)
      have hrw : runTicks sinq cosq sqrtq at2 ⟨true, false, false, false, false⟩
          (n + 1) s
          = runTicks sinq cosq sqrtq at2 ⟨true, false, false, false, false⟩ n
            (updateRobotMovement sinq cosq sqrtq at2
              ⟨true, false, false, false, false⟩ s) := rfl
      refine ⟨?_, ?_, ?_⟩
      · rw [hrw, hx, hx1]
      · rw [hrw, hz, hz1]; push_cast; ring
      · intro _
        cases n with
        | zero => rw [hrw]; exact hcm1
        | succ m => rw [hrw]; exact hcm (Nat.succ_ne_zero m)

lemma cf_run_forward_run (sinq cosq sqrtq : ℚ → ℚ) (at2 : ℚ → ℚ → ℚ)
    (h1 : sqrtq 1 = 1) (n : ℕ) (s : CFState) :
    (runTicks sinq cosq sqrtq at2 ⟨true, false, false, false, true⟩ n s).pos.x
      = s.pos.x ∧
    (runTicks sinq cosq sqrtq at2 ⟨true, false, false, false, true⟩ n s).pos.z
      = s.pos.z - n * (moveSpeed * 2) ∧
    (n ≠ 0 → (runTicks sinq cosq sqrtq at2 ⟨true, false, false, false, true⟩ n
      s).currentMovement = "Running") := by
  induction n generalizing s with
  | zero =>
      refine ⟨rfl, ?_, fun h => absurd rfl h⟩
      show s.pos.z = s.pos.z - ((0 : ℕ) : ℚ) * (moveSpeed * 2)
      push_cast; ring
  | succ n ih =>
      obtain ⟨hx1, hz1, hcm1⟩ := cf_tick_forward_run sinq cosq sqrtq at2 h1 s
      obtain ⟨hx, hz, hcm⟩ :=
        ih (updateRobotMovement sinq cosq sqrtq at2
          ⟨true, false, false, false, true⟩ s)
      have hrw : runTicks sinq cosq sqrtq at2 ⟨true, false, false, false, true⟩
          (n + 1) s
          = runTicks sinq cosq sqrtq at2 ⟨true, false, false, false, true⟩ n
            (updateRobotMovement sinq cosq sqrtq at2
              ⟨true, false, false, false, true⟩ s) := rfl
      refine ⟨?_, ?_, ?_⟩
      · rw [hrw, hx, hx1]
      · rw [hrw, hz, hz1]; push_cast; ring
      · intro _
        cases n with
        | zero => rw [hrw]; exact hcm1
        | succ m => rw [hrw]; exact hcm (Nat.succ_ne_zero m)

/-- C5: while moving forward the per-tick displacement is `moveSpeed`
without the sprint modifier and exactly `moveSpeed * 2` with it; over the
same duration (`n` ticks, `n ≠ 0`) the displacement magnitude with sprint is
exactly double that without (motion is purely along −z, x never changes),
and the locomotion state becomes `Running` instead of `Walking`. -/
theorem c5_sprint_doubles_speed (sinq cosq sqrtq : ℚ → ℚ) (at2 : ℚ → ℚ → ℚ)
    (h1 : sqrtq 1 = 1) (s : CFState) (n : ℕ) (hn : n ≠ 0) :
    (updateRobotMovement sinq cosq sqrtq at2 ⟨true, false, false, false, false⟩
      s).pos.z = s.pos.z - moveSpeed ∧
    (updateRobotMovement sinq cosq sqrtq at2 ⟨true, false, false, false, true⟩
      s).pos.z = s.pos.z - moveSpeed * 2 ∧
    (runTicks sinq cosq sqrtq at2 ⟨true, false, false, false, false⟩ n s).pos.x
      = s.pos.x ∧
    (runTicks sinq cosq sqrtq at2 ⟨true, false, false, false, true⟩ n s).pos.x
      = s.pos.x ∧
    s.pos.z - (runTicks sinq cosq sqrtq at2 ⟨true, false, false, false, true⟩ n
        s).pos.z
      = 2 * (s.pos.z - (runTicks sinq cosq sqrtq at2
        ⟨true, false, false, false, false⟩ n s).pos.z) ∧
    (runTicks sinq cosq sqrtq at2 ⟨true, false, false, false, true⟩ n
      s).currentMovement = "Running" ∧
    (runTicks sinq cosq sqrtq at2 ⟨true, false, false, false, false⟩ n
      s).currentMovement = "Walking" := by
  obtain ⟨hxW, hzW, hcmW⟩ := cf_run_forward_walk sinq cosq sqrtq at2 h1 n s
  obtain ⟨hxR, hzR, hcmR⟩ := cf_run_forward_run sinq cosq sqrtq at2 h1 n s
  refine ⟨(cf_tick_forward_walk sinq cosq sqrtq at2 h1 s).2.1,
    (cf_tick_forward_run sinq cosq sqrtq at2 h1 s).2.1, hxW, hxR, ?_,
    hcmR hn, hcmW hn⟩
  rw [hzW, hzR]
  ring

/-- C5 witness: one tick from a concrete idle state at the origin. -/
theorem c5_witness :
    (updateRobotMovement id id id (fun _ _ => 0)
      ⟨true, false, false, false, false⟩
      ⟨⟨0, 0, 0⟩, 0, "Idle", initAnim⟩).pos.z = (0 : ℚ) - moveSpeed ∧
    (updateRobotMovement id id id (fun _ _ => 0)
      ⟨true, false, false, false, true⟩
      ⟨⟨0, 0, 0⟩, 0, "Idle", initAnim⟩).pos.z = (0 : ℚ) - moveSpeed * 2 ∧
    (runTicks id id id (fun _ _ => 0) ⟨true, false, false, false, false⟩ 1
      ⟨⟨0, 0, 0⟩, 0, "Idle", initAnim⟩).pos.x = (0 : ℚ) ∧
    (runTicks id id id (fun _ _ => 0) ⟨true, false, false, false, true⟩ 1
      ⟨⟨0, 0, 0⟩, 0, "Idle", initAnim⟩).pos.x = (0 : ℚ) ∧
    (0 : ℚ) - (runTicks id id id (fun _ _ => 0) ⟨true, false, false, false, true⟩
        1 ⟨⟨0, 0, 0⟩, 0, "Idle", initAnim⟩).pos.z
      = 2 * ((0 : ℚ) - (runTicks id id id (fun _ _ => 0)
        ⟨true, false, false, false, false⟩ 1
        ⟨⟨0, 0, 0⟩, 0, "Idle", initAnim⟩).pos.z) ∧
    (runTicks id id id (fun _ _ => 0) ⟨true, false, false, false, true⟩ 1
      ⟨⟨0, 0, 0⟩, 0, "Idle", initAnim⟩).currentMovement = "Running" ∧
    (runTicks id id id (fun _ _ => 0) ⟨true, false, false, false, false⟩ 1
      ⟨⟨0, 0, 0⟩, 0, "Idle", initAnim⟩).currentMovement = "Walking" :=
  c5_sprint_doubles_speed id id id (fun _ _ => 0) rfl
    ⟨⟨0, 0, 0⟩, 0, "Idle", initAnim⟩ 1 one_ne_zero

/-- C6: in the closed-form (world-axis) variant, starting at the origin in
the post-load state and holding only forward for 60 ticks leaves `x`
exactly 0, moves `z` by exactly `-(60 × moveSpeed) = -6` — a negative z
displacement whose magnitude is the base speed accumulated over the 60
ticks of one second — and leaves the locomotion state `Walking`.
(The source integrates `moveSpeed` per tick; the `dt` of the frame clock
only drives the animation mixer, not the displacement.) -/
theorem c6_hold_forward_one_second (sinq cosq sqrtq : ℚ → ℚ)
    (at2 : ℚ → ℚ → ℚ) (h1 : sqrtq 1 = 1) :
    (runTicks sinq cosq sqrtq at2 ⟨true, false, false, false, false⟩ 60
      ⟨⟨0, 0, 0⟩, 0, "Idle", initAnim⟩).pos.x = 0 ∧
    (runTicks sinq cosq sqrtq at2 ⟨true, false, false, false, false⟩ 60
      ⟨⟨0, 0, 0⟩, 0, "Idle", initAnim⟩).pos.z = -(60 * moveSpeed) ∧
    (runTicks sinq cosq sqrtq at2 ⟨true, false, false, false, false⟩ 60
      ⟨⟨0, 0, 0⟩, 0, "Idle", initAnim⟩).pos.z = -6 ∧
    (runTicks sinq cosq sqrtq at2 ⟨true, false, false, false, false⟩ 60
      ⟨⟨0, 0, 0⟩, 0, "Idle", initAnim⟩).pos.z < 0 ∧
    (runTicks sinq cosq sqrtq at2 ⟨true, false, false, false, false⟩ 60
      ⟨⟨0, 0, 0⟩, 0, "Idle", initAnim⟩).currentMovement = "Walking" := by
  obtain ⟨hx, hz, hcm⟩ := cf_run_forward_walk sinq cosq sqrtq at2 h1 60
    ⟨⟨0, 0, 0⟩, 0, "Idle", initAnim⟩
  refine ⟨hx, ?_, ?_, ?_, hcm (by norm_num)⟩
  · rw [hz]; norm_num
  · rw [hz]; norm_num [moveSpeed]
  · rw [hz]; norm_num [moveSpeed]

/-- C6 witness: the same 60-tick run with concrete collaborators. -/
theorem c6_witness :
    (runTicks id id id (fun _ _ => 0) ⟨true, false, false, false, false⟩ 60
      ⟨⟨0, 0, 0⟩, 0, "Idle", initAnim⟩).pos.x = 0 ∧
    (runTicks id id id (fun _ _ => 0) ⟨true, false, false, false, false⟩ 60
      ⟨⟨0, 0, 0⟩, 0, "Idle", initAnim⟩).pos.z = -(60 * moveSpeed) ∧
    (runTicks id id id (fun _ _ => 0) ⟨true, false, false, false, false⟩ 60
      ⟨⟨0, 0, 0⟩, 0, "Idle", initAnim⟩).pos.z = -6 ∧
    (runTicks id id id (fun _ _ => 0) ⟨true, false, false, false, false⟩ 60
      ⟨⟨0, 0, 0⟩, 0, "Idle", initAnim⟩).pos.z < 0 ∧
    (runTicks id id id (fun _ _ => 0) ⟨true, false, false, false, false⟩ 60
      ⟨⟨0, 0, 0⟩, 0, "Idle", initAnim⟩).currentMovement = "Walking" :=
  c6_hold_forward_one_second id id id (fun _ _ => 0) rfl

/-! ## The raycast selects the closest hit over all tiles -/

lemma hitLE_trans (a b c : Hit) (hab : hitLE a b) (hbc : hitLE b c) :
    hitLE a c := by
  simp only [hitLE, decide_eq_true_eq] at *
  exact le_trans hab hbc

lemma hitLE_total (a b : Hit) : hitLE a b || hitLE b a := by
  simp only [hitLE, Bool.or_eq_true, decide_eq_true_eq]
  exact le_total a.distance b.distance

/-- C2: the downward surface query of the tiled variant gathers the hits of
every active tile — each hit of each tile is among the collected candidates
— and the resulting height is the `point.y` of a collected hit whose ray
distance is minimal among all hits from all tiles. -/
theorem c2_closest_hit_over_all_tiles (tileHits : List (List Hit))
    (h : collectHits tileHits ≠ []) :
    (∀ l ∈ tileHits, ∀ ht ∈ l, ht ∈ collectHits tileHits) ∧
    ∃ best ∈ collectHits tileHits,
      terrainRayHeight tileHits = best.pointY ∧
      ∀ other ∈ collectHits tileHits, best.distance ≤ other.distance := by
  constructor
  · intro l hl ht hht
    rw [collectHits_eq_flatten]
    exact List.mem_flatten.mpr ⟨l, hl, hht⟩
  · have hperm := List.mergeSort_perm (collectHits tileHits) hitLE
    have hsorted : ((collectHits tileHits).mergeSort hitLE).Pairwise
        (fun a b => hitLE a b = true) :=
      List.sorted_mergeSort hitLE_trans hitLE_total (collectHits tileHits)
    cases hms : (collectHits tileHits).mergeSort hitLE with
    | nil =>
        exfalso
        rw [hms] at hperm
        exact h hperm.symm.eq_nil
    | cons best rest =>
        refine ⟨best, ?_, ?_, ?_⟩
        · have hmem : best ∈ (collectHits tileHits).mergeSort hitLE := by
            rw [hms]; exact List.mem_cons_self best rest
          exact List.mem_mergeSort.mp hmem
        · unfold terrainRayHeight
          rw [hms]
        · intro other hother
          have hmem : other ∈ best :: rest := by
            rw [← hms]; exact List.mem_mergeSort.mpr hother
          rcases List.mem_cons.mp hmem with heq | hmem2
          · rw [heq]
          · rw [hms] at hsorted
            have hle := (List.pairwise_cons.mp hsorted).1 other hmem2
            simpa [hitLE, decide_eq_true_eq] using hle

/-- C2 witness: two tiles each contributing one hit; the second tile holds
the closer one, and its height is selected. -/
theorem c2_witness :
    (∀ l ∈ ([[⟨5, 2⟩], [⟨3, 7⟩]] : List (List Hit)), ∀ ht ∈ l,
      ht ∈ collectHits [[⟨5, 2⟩], [⟨3, 7⟩]]) ∧
    ∃ best ∈ collectHits [[⟨5, 2⟩], [⟨3, 7⟩]],
      terrainRayHeight [[⟨5, 2⟩], [⟨3, 7⟩]] = best.pointY ∧
      ∀ other ∈ collectHits [[⟨5, 2⟩], [⟨3, 7⟩]],
        best.distance ≤ other.distance :=
  c2_closest_hit_over_all_tiles [[⟨5, 2⟩], [⟨3, 7⟩]] (by decide)

end RobotTerrain
